import Mathlib

/-!
Shallow embedding of the dynamic form validator (src/js/validator.js).

Modelling conventions:
* JavaScript values flowing through the validator are modelled by `JSVal`
  (null, undefined, strings, numbers, booleans).  JS numbers are modelled by
  integers: every value the validator's claims exercise is integer-valued,
  and `NaN` outcomes of the parsing helpers are modelled by `Option` (`none`
  is NaN).
* A JS `Map` is modelled by an association list in insertion order:
  `mapSet` replaces the value of an existing key in place and appends a fresh
  key at the end, exactly like `Map.prototype.set`; `mapGet` is
  `Map.prototype.get`; `mapDelete` is `Map.prototype.delete`.
* A rule predicate may throw, which is modelled by `Except String Bool`
  (`Except.error` is a thrown exception).  `forEach` propagates a callback's
  exception, so the iteration helpers return `Except` as well.
* `console.warn` output is modelled as an explicit list-of-strings channel
  returned next to the validation result.
* Host facilities whose internals are outside the validator source
  (`new RegExp(p).test`, `new Date` validity, `new URL` parsing) are
  parameters collected in `JSEnv`.
-/

/-- A JavaScript value as handled by the validator. -/
inductive JSVal : Type
  | null : JSVal
  | undef : JSVal
  | str : String → JSVal
  | num : Int → JSVal
  | bool : Bool → JSVal
deriving DecidableEq

/-- JS `String(v)` / `v.toString()` conversion. -/
def toStringJS : JSVal → String
  | JSVal.null => "null"
  | JSVal.undef => "undefined"
  | JSVal.str s => s
  | JSVal.num n => toString n
  | JSVal.bool b => if b then "true" else "false"

/-- JS `s.trim()`: strip leading and trailing whitespace. -/
def jsTrim (s : String) : String :=
  ⟨((s.data.dropWhile Char.isWhitespace).reverse.dropWhile Char.isWhitespace).reverse⟩

/-- JS truthiness (`!value` is `!truthy value`).  Falsy values: `null`,
`undefined`, the empty string, the number `0`, the boolean `false`. -/
def truthy : JSVal → Bool
  | JSVal.null => false
  | JSVal.undef => false
  | JSVal.str s => decide (s ≠ "")
  | JSVal.num n => decide (n ≠ 0)
  | JSVal.bool b => b

/-- JS `Number(v)` coercion (used by `isNaN`); `none` is NaN.  String parsing
is modelled for integer literals. -/
def toNumber : JSVal → Option Int
  | JSVal.null => some 0
  | JSVal.undef => none
  | JSVal.str s => if jsTrim s = "" then some 0 else (jsTrim s).toInt?
  | JSVal.num n => some n
  | JSVal.bool b => some (if b then 1 else 0)

/-- JS `parseFloat(v)`: stringify, then parse a leading numeric literal;
`none` is NaN.  Modelled for integer literals. -/
def parseFloatJS (v : JSVal) : Option Int :=
  (jsTrim (toStringJS v)).toInt?

/-- JS `parseInt(v)`: stringify, then parse a leading integer literal;
`none` is NaN. -/
def parseIntJS (v : JSVal) : Option Int :=
  (jsTrim (toStringJS v)).toInt?

/-- A JS plain object used as a rule's `params`: keys with values, in
insertion order. -/
abbrev Params := List (String × JSVal)

/-- JS property read `params[key]`: `undefined` when the key is absent. -/
def pget (params : Params) (key : String) : JSVal :=
  match params with
  | [] => JSVal.undef
  | (k, v) :: rest => if k = key then v else pget rest key

/-- JS `a || b`. -/
def jsOr (a b : JSVal) : JSVal :=
  if truthy a then a else b

/-- JS `x || d` for a string-or-undefined `x`: both `undefined` and the
empty string are falsy and select the default. -/
def jsOrStr (x : Option String) (d : String) : String :=
  match x with
  | some s => if s = "" then d else s
  | none => d

/-- Characters that are active regular-expression syntax when a params key
is spliced raw into `new RegExp('\\\x7b' + key + '\\\x7d', 'g')` (only the
braces are escaped by the source). -/
def regexMeta (c : Char) : Bool :=
  c = '.' || c = '*' || c = '+' || c = '?' || c = '^' || c = '$' || c = '(' || c = ')' ||
    c = '[' || c = ']' || c = '\x7b' || c = '\x7d' || c = '|' || c = '\\'

/-- A params key whose characters are all regex-literal: for such a key the
compiled placeholder regex matches exactly the literal text
`\x7bkey\x7d`. -/
def regexSafeKey (k : String) : Bool :=
  k.data.all (fun c => !regexMeta c)

/-- A replacement text with no `$`: `String.prototype.replace` inserts such
a replacement verbatim (no `$&`/`$n` substitution patterns). -/
def dollarFree (s : String) : Bool :=
  !s.data.contains '$'

/-- The form-data snapshot: JS property read `formData[name]` (`undefined`
for absent names). -/
abbrev FormData := String → JSVal

/-- JS relational `a >= b` where `a` is already a number and `b` is coerced
with `Number`; comparisons against NaN are false. -/
def jsGeNum (a : Int) (b : JSVal) : Bool :=
  match toNumber b with
  | some n => decide (a ≥ n)
  | none => false

/-- JS relational `a <= b` where `a` is already a number and `b` is coerced
with `Number`; comparisons against NaN are false. -/
def jsLeNum (a : Int) (b : JSVal) : Bool :=
  match toNumber b with
  | some n => decide (a ≤ n)
  | none => false

/-- A rule predicate: receives the value, the rule params and the form-data
snapshot; `Except.error` models a thrown exception. -/
abbrev Predicate := JSVal → Params → FormData → Except String Bool

/-- Host facilities used by built-in rules but implemented outside the
validator source: `new RegExp(pattern).test(s)`, validity of `new Date(v)`,
and whether `new URL(s)` constructs without throwing. -/
structure JSEnv : Type where
  regexTest : JSVal → String → Bool
  dateOk : JSVal → Bool
  urlOk : String → Bool

/-- Character class `[^\s@]` of the email regex, negated. -/
def emailStop (c : Char) : Bool :=
  c == '@' || c.isWhitespace

/-- Test of the fixed email regex `^[^\s@]+@[^\s@]+\.[^\s@]+$`: exactly one
`@`, a nonempty whitespace-free local part, and a whitespace-free domain
containing a dot that is neither its first nor its last character. -/
def emailTest (s : String) : Bool :=
  match s.splitOn "@" with
  | [localPart, domain] =>
    decide (localPart ≠ "") && localPart.data.all (fun c => !emailStop c) &&
      decide (domain ≠ "") && domain.data.all (fun c => !emailStop c) &&
      (domain.data.drop 1).dropLast.contains '.'
  | _ => false

/-- `value.replace(/[\s\-\(\)]/g, '')` of the phone rule. -/
def stripPhone (s : String) : String :=
  ⟨s.data.filter (fun c => !(c.isWhitespace || c == '-' || c == '(' || c == ')'))⟩

/-- Test of the fixed phone regex `^[\+]?[1-9][\d]{0,15}$`. -/
def phoneTest (s : String) : Bool :=
  let cs := if s.data.head? = some '+' then s.data.drop 1 else s.data
  match cs with
  | [] => false
  | c :: rest => ('1' ≤ c && c ≤ '9') && rest.all Char.isDigit && decide (rest.length ≤ 15)

/-- Built-in `required` rule:
`value !== null && value !== undefined && value.toString().trim() !== ''`. -/
def requiredPred : Predicate := fun value _ _ =>
  Except.ok (decide (value ≠ JSVal.null ∧ value ≠ JSVal.undef ∧ jsTrim (toStringJS value) ≠ ""))

/-- Built-in `minLength` rule. -/
def minLengthPred : Predicate := fun value params _ =>
  if !truthy value then Except.ok true
  else Except.ok (jsGeNum ((toStringJS value).length : Int) (pget params "length"))

/-- Built-in `maxLength` rule. -/
def maxLengthPred : Predicate := fun value params _ =>
  if !truthy value then Except.ok true
  else Except.ok (jsLeNum ((toStringJS value).length : Int) (pget params "length"))

/-- Built-in `email` rule. -/
def emailPred : Predicate := fun value _ _ =>
  if !truthy value then Except.ok true
  else Except.ok (emailTest (toStringJS value))

/-- Built-in `phone` rule.  `value.replace` exists only on strings: invoking
it on a truthy non-string value throws a TypeError. -/
def phonePred : Predicate := fun value _ _ =>
  if !truthy value then Except.ok true
  else
    match value with
    | JSVal.str s => Except.ok (phoneTest (stripPhone s))
    | _ => Except.error "TypeError: value.replace is not a function"

/-- Built-in `number` rule: `!isNaN(value) && !isNaN(parseFloat(value))`. -/
def numberPred : Predicate := fun value _ _ =>
  if !truthy value then Except.ok true
  else Except.ok ((toNumber value).isSome && (parseFloatJS value).isSome)

/-- Built-in `min` rule: `parseFloat(value) >= params.value`. -/
def minPred : Predicate := fun value params _ =>
  if !truthy value then Except.ok true
  else
    Except.ok (match parseFloatJS value with
      | some x => jsGeNum x (pget params "value")
      | none => false)

/-- Built-in `max` rule: `parseFloat(value) <= params.value`. -/
def maxPred : Predicate := fun value params _ =>
  if !truthy value then Except.ok true
  else
    Except.ok (match parseFloatJS value with
      | some x => jsLeNum x (pget params "value")
      | none => false)

/-- Built-in `pattern` rule: `new RegExp(params.pattern).test(value)`. -/
def patternPred (env : JSEnv) : Predicate := fun value params _ =>
  if !truthy value then Except.ok true
  else Except.ok (env.regexTest (pget params "pattern") (toStringJS value))

/-- The fixed special-character class of the `password` rule. -/
def passwordSpecial (c : Char) : Bool :=
  "!@#$%^&*(),.?\":\x7b\x7d|<>".data.contains c

/-- Built-in `password` rule.  `value.length` exists only on strings; on a
non-string value it is `undefined` and `undefined >= n` is false. -/
def passwordPred : Predicate := fun value params _ =>
  if !truthy value then Except.ok true
  else
    let s := toStringJS value
    let hasUpperCase := s.data.any Char.isUpper
    let hasLowerCase := s.data.any Char.isLower
    let hasNumbers := s.data.any Char.isDigit
    let hasSpecialChar := s.data.any passwordSpecial
    let isLongEnough :=
      match value with
      | JSVal.str t => jsGeNum (t.length : Int) (jsOr (pget params "minLength") (JSVal.num 8))
      | _ => false
    Except.ok (hasUpperCase && hasLowerCase && hasNumbers && hasSpecialChar && isLongEnough)

/-- Built-in `confirmPassword` rule: `value === formData[params.matchField]`
(the property key is coerced to a string, as in JS). -/
def confirmPasswordPred : Predicate := fun value params formData =>
  if !truthy value then Except.ok true
  else Except.ok (decide (value = formData (toStringJS (pget params "matchField"))))

/-- Built-in `age` rule: `parseInt(value)` within
`[params.min || 0, params.max || 120]`. -/
def agePred : Predicate := fun value params _ =>
  if !truthy value then Except.ok true
  else
    let minAge := jsOr (pget params "min") (JSVal.num 0)
    let maxAge := jsOr (pget params "max") (JSVal.num 120)
    Except.ok (match parseIntJS value with
      | some a => jsGeNum a minAge && jsLeNum a maxAge
      | none => false)

/-- Built-in `date` rule: `new Date(value)` yields a valid (non-NaN) date. -/
def datePred (env : JSEnv) : Predicate := fun value _ _ =>
  if !truthy value then Except.ok true
  else Except.ok (env.dateOk value)

/-- Built-in `url` rule: `new URL(value)` constructs without throwing. -/
def urlPred (env : JSEnv) : Predicate := fun value _ _ =>
  if !truthy value then Except.ok true
  else Except.ok (env.urlOk (toStringJS value))

/-- `Map.prototype.set`: replace the value of an existing key in place,
append a fresh key at the end (insertion order preserved). -/
def mapSet {α : Type} (m : List (String × α)) (k : String) (v : α) : List (String × α) :=
  match m with
  | [] => [(k, v)]
  | (k', v') :: rest => if k' = k then (k, v) :: rest else (k', v') :: mapSet rest k v

/-- `Map.prototype.get`: `none` is `undefined`. -/
def mapGet {α : Type} (m : List (String × α)) (k : String) : Option α :=
  match m with
  | [] => none
  | (k', v') :: rest => if k' = k then some v' else mapGet rest k

/-- `Map.prototype.delete`. -/
def mapDelete {α : Type} (m : List (String × α)) (k : String) : List (String × α) :=
  match m with
  | [] => []
  | (k', v') :: rest => if k' = k then rest else (k', v') :: mapDelete rest k

/-- One entry of a field configuration's `rules` array: either a bare rule
name, or an object `\x7bname, params?, message?\x7d`. -/
inductive RuleRef : Type
  | str : String → RuleRef
  | obj : String → Option Params → Option String → RuleRef
deriving DecidableEq

/-- `typeof rule === 'string' ? rule : rule.name`. -/
def RuleRef.rname : RuleRef → String
  | RuleRef.str s => s
  | RuleRef.obj n _ _ => n

/-- `typeof rule === 'string' ? \x7b\x7d : rule.params || \x7b\x7d`. -/
def RuleRef.rparams : RuleRef → Params
  | RuleRef.str _ => []
  | RuleRef.obj _ p _ => p.getD []

/-- `typeof rule === 'string' ? null : rule.message`. -/
def RuleRef.rmessage : RuleRef → Option String
  | RuleRef.str _ => none
  | RuleRef.obj _ _ m => m

/-- The `rules` property of a field configuration as supplied by a caller:
either an actual array of rule references, or (a structurally malformed
configuration) any non-array value. -/
inductive RulesField : Type
  | list : List RuleRef → RulesField
  | nonList : JSVal → RulesField
deriving DecidableEq

/-- A field configuration object. -/
structure Config : Type where
  rules : RulesField
deriving DecidableEq

/-- One produced validation failure:
`\x7brule, message, params\x7d`. -/
structure RuleFailure : Type where
  rule : String
  message : String
  params : Params
deriving DecidableEq

/-- Result of `validateField`: `\x7bisValid, errors\x7d`. -/
structure ValidationResult : Type where
  isValid : Bool
  errors : List RuleFailure
deriving DecidableEq

/-- One entry of the flattened error list of `validateForm`: a `RuleFailure`
tagged with its field name. -/
structure FieldError : Type where
  field : String
  rule : String
  message : String
  params : Params
deriving DecidableEq

/-- Result of `validateForm`. -/
structure FormResult : Type where
  isValid : Bool
  fields : List (String × ValidationResult)
  errors : List FieldError
deriving DecidableEq

/-- The `FormValidator` instance state: the three maps created in the
constructor. -/
structure FormValidator : Type where
  validationRules : List (String × Predicate)
  errorMessages : List (String × String)
  fieldConfigs : List (String × Config)

/-- `addValidationRule(name, validator, message)`. -/
def FormValidator.addValidationRule (v : FormValidator) (name : String)
    (validator : Predicate) (message : String) : FormValidator :=
  { v with
    validationRules := mapSet v.validationRules name validator,
    errorMessages := mapSet v.errorMessages name message }

/-- `initializeDefaultRules()`: registers the fourteen built-in rules, in
source order, with their default message templates. -/
def FormValidator.initializeDefaultRules (env : JSEnv) (v : FormValidator) : FormValidator :=
  v.addValidationRule "required" requiredPred "This field is required"
  |>.addValidationRule "minLength" minLengthPred "Must be at least \x7blength\x7d characters long"
  |>.addValidationRule "maxLength" maxLengthPred "Must be no more than \x7blength\x7d characters long"
  |>.addValidationRule "email" emailPred "Please enter a valid email address"
  |>.addValidationRule "phone" phonePred "Please enter a valid phone number"
  |>.addValidationRule "number" numberPred "Please enter a valid number"
  |>.addValidationRule "min" minPred "Value must be at least \x7bvalue\x7d"
  |>.addValidationRule "max" maxPred "Value must be no more than \x7bvalue\x7d"
  |>.addValidationRule "pattern" (patternPred env) "Please match the required format"
  |>.addValidationRule "password" passwordPred
      "Password must contain uppercase, lowercase, numbers, special characters, and be at least 8 characters long"
  |>.addValidationRule "confirmPassword" confirmPasswordPred "Passwords do not match"
  |>.addValidationRule "age" agePred "Please enter a valid age between \x7bmin\x7d and \x7bmax\x7d"
  |>.addValidationRule "date" (datePred env) "Please enter a valid date"
  |>.addValidationRule "url" (urlPred env) "Please enter a valid URL"

/-- `new FormValidator()`: three empty maps, then `initializeDefaultRules`. -/
def FormValidator.new (env : JSEnv) : FormValidator :=
  FormValidator.initializeDefaultRules env
    { validationRules := [], errorMessages := [], fieldConfigs := [] }

/-- `configureField(fieldName, config)`: stores the configuration as given,
with no structural check. -/
def FormValidator.configureField (v : FormValidator) (fieldName : String)
    (config : Config) : FormValidator :=
  { v with fieldConfigs := mapSet v.fieldConfigs fieldName config }

/-- `configureFields(configs)`: `Object.entries` order. -/
def FormValidator.configureFields (v : FormValidator)
    (configs : List (String × Config)) : FormValidator :=
  configs.foldl (fun acc kc => acc.configureField kc.1 kc.2) v

/-- `resetField(fieldName)`. -/
def FormValidator.resetField (v : FormValidator) (fieldName : String) : FormValidator :=
  { v with fieldConfigs := mapDelete v.fieldConfigs fieldName }

/-- `clearAll()`. -/
def FormValidator.clearAll (v : FormValidator) : FormValidator :=
  { v with fieldConfigs := [] }

/-- `getAvailableRules()`: `Array.from(this.validationRules.keys())`. -/
def FormValidator.getAvailableRules (v : FormValidator) : List String :=
  v.validationRules.map Prod.fst

/-- Global replacement of the literal pattern `pat` in `l`, scanning left to
right without overlap — the semantics of
`message.replace(new RegExp(escapedPat, 'g'), repl)` for a pattern with no
metacharacters.  The fuel argument (instantiated with the text length) only
bounds the recursion; each step either consumes the match or one character. -/
def replaceFuel (pat repl : List Char) : Nat → List Char → List Char
  | 0, l => l
  | _ + 1, [] => []
  | fuel + 1, c :: rest =>
    if pat ≠ [] ∧ pat <+: (c :: rest) then
      repl ++ replaceFuel pat repl fuel ((c :: rest).drop pat.length)
    else
      c :: replaceFuel pat repl fuel rest

/-- String-level wrapper of `replaceFuel`. -/
def replaceAll (s pat repl : String) : String :=
  ⟨replaceFuel pat.data repl.data s.data.length s.data⟩

/-- The starting template of `formatErrorMessage`:
`this.errorMessages.get(ruleName) || 'Invalid value'` — the fallback fires
both when the rule is unknown (`get` returns `undefined`) and when the
registered template is the falsy empty string. -/
def FormValidator.templateFor (v : FormValidator) (ruleName : String) : String :=
  jsOrStr (mapGet v.errorMessages ruleName) "Invalid value"

/-- `formatErrorMessage(ruleName, params)`: start from
`this.errorMessages.get(ruleName) || 'Invalid value'`, then for each
`params` entry whose value is not null, not undefined and not the empty
string, perform
`message.replace(new RegExp('\\\x7b' + key + '\\\x7d', 'g'), value)`.
The replacement is modelled as literal global replacement of the placeholder
`\x7bkey\x7d`, which is the behavior of the source's regex replace exactly
when the key contains no regex metacharacters (`regexSafeKey`) and the
value's text form contains no `$` substitution pattern (`dollarFree`);
outside that domain the source's host regex engine can rewrite differently,
and the theorems below assert nothing there.  (The source's early return
for a non-object `params` argument is unreachable here because `Params` is
always an object.) -/
def FormValidator.formatErrorMessage (v : FormValidator) (ruleName : String)
    (params : Params) : String :=
  let message := v.templateFor ruleName
  params.foldl
    (fun msg kv =>
      if kv.2 ≠ JSVal.null ∧ kv.2 ≠ JSVal.undef ∧ kv.2 ≠ JSVal.str "" then
        replaceAll msg ("\x7b" ++ kv.1 ++ "\x7d") (toStringJS kv.2)
      else msg)
    message

/-- The message attached to a failing rule reference:
`customMessage || this.formatErrorMessage(ruleName, ruleParams)`
(a falsy — absent or empty — custom message falls back to the template). -/
def FormValidator.ruleMessage (v : FormValidator) (r : RuleRef) : String :=
  match r.rmessage with
  | some m => if m = "" then v.formatErrorMessage r.rname r.rparams else m
  | none => v.formatErrorMessage r.rname r.rparams

/-- The `RuleFailure` object pushed for a failing rule reference. -/
def FormValidator.ruleFailureOf (v : FormValidator) (r : RuleRef) : RuleFailure :=
  { rule := r.rname, message := v.ruleMessage r, params := r.rparams }

/-- The `config.rules.forEach` loop body of `validateField`: resolve each
reference; an unresolved rule name only emits a `console.warn` line; a
resolved predicate is invoked, a thrown exception propagates (`forEach` does
not catch), and a false result appends a `RuleFailure`.  Returns the errors
array and the warning channel. -/
def FormValidator.runRules (v : FormValidator) (value : JSVal) (formData : FormData) :
    List RuleRef → Except String (List RuleFailure × List String)
  | [] => Except.ok ([], [])
  | rule :: rest =>
    match mapGet v.validationRules rule.rname with
    | none =>
      match v.runRules value formData rest with
      | Except.error e => Except.error e
      | Except.ok (errs, warns) =>
        Except.ok (errs, ("Validation rule \"" ++ rule.rname ++ "\" not found") :: warns)
    | some validator =>
      match validator value rule.rparams formData with
      | Except.error e => Except.error e
      | Except.ok isValid =>
        match v.runRules value formData rest with
        | Except.error e => Except.error e
        | Except.ok (errs, warns) =>
          if isValid then Except.ok (errs, warns)
          else Except.ok (v.ruleFailureOf rule :: errs, warns)

/-- `validateField(fieldName, value, formData)`.  A field with no
configuration is unconditionally valid.  A configuration whose `rules` is
not an array throws a TypeError at `config.rules.forEach`. -/
def FormValidator.validateField (v : FormValidator) (fieldName : String)
    (value : JSVal) (formData : FormData) :
    Except String (ValidationResult × List String) :=
  match mapGet v.fieldConfigs fieldName with
  | none => Except.ok ({ isValid := true, errors := [] }, [])
  | some config =>
    match config.rules with
    | RulesField.nonList _ =>
      Except.error "TypeError: config.rules.forEach is not a function"
    | RulesField.list rules =>
      match v.runRules value formData rules with
      | Except.error e => Except.error e
      | Except.ok (errors, warns) =>
        Except.ok ({ isValid := decide (errors.length = 0), errors := errors }, warns)

/-- `getAllErrors(results)`: flatten, tagging each error with its field. -/
def getAllErrors : List (String × ValidationResult) → List FieldError
  | [] => []
  | (fieldName, result) :: rest =>
    (if result.isValid then []
     else result.errors.map (fun e =>
       { field := fieldName, rule := e.rule, message := e.message, params := e.params })) ++
      getAllErrors rest

/-- The `this.fieldConfigs.forEach` loop of `validateForm`: validate every
configured field against the snapshot, in map insertion order. -/
def FormValidator.runFields (v : FormValidator) (formData : FormData) :
    List (String × Config) → Except String (List (String × ValidationResult) × List String)
  | [] => Except.ok ([], [])
  | (fieldName, _) :: rest =>
    match v.validateField fieldName (formData fieldName) formData with
    | Except.error e => Except.error e
    | Except.ok (res, warns) =>
      match v.runFields formData rest with
      | Except.error e => Except.error e
      | Except.ok (results, warns') => Except.ok ((fieldName, res) :: results, warns ++ warns')

/-- `validateForm(formData)`. -/
def FormValidator.validateForm (v : FormValidator) (formData : FormData) :
    Except String (FormResult × List String) :=
  match v.runFields formData v.fieldConfigs with
  | Except.error e => Except.error e
  | Except.ok (results, warns) =>
    Except.ok
      ({ isValid := results.all (fun r => r.2.isValid),
         fields := results,
         errors := getAllErrors results }, warns)

/-- Instance-state-passing form of `validateField`: the method body reads
`this.fieldConfigs` and `this.validationRules` but contains no `set`,
`delete` or `clear`, so the instance after the call is the instance
before. -/
def validateFieldSt (v : FormValidator) (fieldName : String) (value : JSVal)
    (formData : FormData) :
    Except String (ValidationResult × List String) × FormValidator :=
  (v.validateField fieldName value formData, v)

/-- Instance-state-passing form of `validateForm` (no `set`, `delete` or
`clear` anywhere in its body or its callees). -/
def validateFormSt (v : FormValidator) (formData : FormData) :
    Except String (FormResult × List String) × FormValidator :=
  (v.validateForm formData, v)

/-- Instance-state-passing form of `formatErrorMessage` (reads
`this.errorMessages` only). -/
def formatErrorMessageSt (v : FormValidator) (ruleName : String) (params : Params) :
    String × FormValidator :=
  (v.formatErrorMessage ruleName params, v)

/-- Instance-state-passing form of `getAvailableRules` (reads
`this.validationRules` only). -/
def getAvailableRulesSt (v : FormValidator) : List String × FormValidator :=
  (v.getAvailableRules, v)

/-- A trivial host environment used for concrete test instances. -/
def env0 : JSEnv :=
  { regexTest := fun _ _ => false, dateOk := fun _ => false, urlOk := fun _ => false }

/-- The empty form-data snapshot. -/
def emptyFD : FormData := fun _ => JSVal.undef

/-- Whether a rule reference's predicate is registered and returns `false`
(without throwing) on the given value — the references that produce a
`RuleFailure`. -/
def ruleFails (v : FormValidator) (value : JSVal) (fd : FormData) (r : RuleRef) : Bool :=
  match mapGet v.validationRules r.rname with
  | none => false
  | some p =>
    match p value r.rparams fd with
    | Except.ok b => !b
    | Except.error _ => false

/-- Test instance: the default validator plus a custom rule whose predicate
throws, configured on field `"f"` ahead of `required`. -/
def boomValidator : FormValidator :=
  ((FormValidator.new env0).addValidationRule "boom"
      (fun _ _ _ => Except.error "boom") "Internal failure").configureField "f"
    { rules := RulesField.list [RuleRef.str "boom", RuleRef.str "required"] }

/-- Test instance: the default validator given a structurally malformed
configuration whose `rules` is the number `42` instead of an array. -/
def malformedValidator : FormValidator :=
  (FormValidator.new env0).configureField "x" { rules := RulesField.nonList (JSVal.num 42) }

/-- Test predicate that always fails. -/
def failPred : Predicate := fun _ _ _ => Except.ok false

/-- Test predicate that always passes. -/
def passPred : Predicate := fun _ _ _ => Except.ok true

/-- Test instance: two registered rules, both configured on field `"f"`. -/
def twoRuleValidator : FormValidator :=
  ((FormValidator.mk [] [] []).addValidationRule "alwaysFail" failPred "failed"
    |>.addValidationRule "alwaysPass" passPred "passed").configureField "f"
    { rules := RulesField.list [RuleRef.str "alwaysFail", RuleRef.str "alwaysPass"] }

/-- Test instance: an empty registry with field `"g"` configured to use a
rule name that is not registered. -/
def unknownRuleValidator : FormValidator :=
  (FormValidator.mk [] [] []).configureField "g"
    { rules := RulesField.list [RuleRef.str "doesNotExist"] }

/-- Test instance: a rule registered through the public API with the empty
string as its message template. -/
def emptyTemplateValidator : FormValidator :=
  (FormValidator.mk [] [] []).addValidationRule "r" passPred ""

theorem mapSet_mapSet {α : Type} (m : List (String × α)) (k : String) (a b : α) :
    mapSet (mapSet m k a) k b = mapSet m k b := by
  induction m with
  | nil => simp [mapSet]
  | cons kv rest ih =>
    obtain ⟨k', v'⟩ := kv
    by_cases h : k' = k
    · subst h; simp [mapSet]
    · simp [mapSet, h, ih]

/-- C1: a rule predicate that throws during `validateField` is not caught:
the exception propagates out of `validateField` (there is no try/catch
around the predicate call), so no `RuleFailure` is produced and the
remaining rules (`required` here) are not evaluated.  This contradicts the
claim that the exception is converted into a `RuleFailure` and validation
still completes. -/
theorem C1_predicate_exception_propagates :
    boomValidator.validateField "f" (JSVal.str "x") emptyFD = Except.error "boom" := rfl

/-- C4: `configureField` accepts a structurally malformed configuration
(`rules` is the number `42`) silently — the config is stored as given and no
error is raised at configuration time; the failure surfaces only later, as a
TypeError thrown by `config.rules.forEach` during `validateField`.  This
contradicts the claim that `configureField` raises a descriptive error
immediately. -/
theorem C4_malformed_config_accepted_silently :
    mapGet malformedValidator.fieldConfigs "x" =
      some { rules := RulesField.nonList (JSVal.num 42) } ∧
    malformedValidator.validateField "x" (JSVal.str "a") emptyFD =
      Except.error "TypeError: config.rules.forEach is not a function" :=
  ⟨rfl, rfl⟩

/-- C7: registering the same rule name twice leaves the validator in exactly
the state of the second registration alone — the second predicate and
message template replace the first in place, so every subsequent
`validateField` evaluation and `formatErrorMessage` call uses the second
registration. -/
theorem C7_last_registration_wins (v : FormValidator) (n : String)
    (p1 p2 : Predicate) (m1 m2 : String) :
    (v.addValidationRule n p1 m1).addValidationRule n p2 m2 =
      v.addValidationRule n p2 m2 := by
  simp [FormValidator.addValidationRule, mapSet_mapSet]

/-- C8: calling `validateForm` twice in succession with the same unchanged
snapshot yields identical results — the first call leaves the instance state
(rule registry and field configuration store) untouched, so the second call
runs on the same state and returns the same `FormValidationResult`. -/
theorem C8_validate_form_idempotent (v : FormValidator) (fd : FormData) :
    (validateFormSt (validateFormSt v fd).2 fd).1 = (validateFormSt v fd).1 ∧
    (validateFormSt (validateFormSt v fd).2 fd).2 = (validateFormSt v fd).2 :=
  ⟨rfl, rfl⟩

/-- C10: `validateField`, `validateForm`, `formatErrorMessage` and
`getAvailableRules` never modify the validator's state: the instance after
each call is exactly the instance before (their bodies contain no map
`set`/`delete`/`clear`; only `addValidationRule`, `configureField`,
`configureFields`, `resetField` and `clearAll` do). -/
theorem C10_readers_preserve_state (v : FormValidator) (fieldName ruleName : String)
    (value : JSVal) (fd : FormData) (params : Params) :
    (validateFieldSt v fieldName value fd).2 = v ∧
    (validateFormSt v fd).2 = v ∧
    (formatErrorMessageSt v ruleName params).2 = v ∧
    (getAvailableRulesSt v).2 = v :=
  ⟨rfl, rfl, rfl, rfl⟩

theorem runRules_all_unknown (v : FormValidator) (value : JSVal) (fd : FormData)
    (rs : List RuleRef) (h : ∀ r ∈ rs, mapGet v.validationRules r.rname = none) :
    v.runRules value fd rs =
      Except.ok ([], rs.map (fun r => "Validation rule \"" ++ r.rname ++ "\" not found")) := by
  induction rs with
  | nil => rfl
  | cons r rest ih =>
    have hr := h r (List.mem_cons_self r rest)
    have hrest : ∀ x ∈ rest, mapGet v.validationRules x.rname = none :=
      fun x hx => h x (List.mem_cons_of_mem r hx)
    simp [FormValidator.runRules, hr, ih hrest]

/-- C3: a field whose configuration references only rule names absent from
the registry is reported valid with no errors — each unknown rule is skipped
as vacuously passing and contributes exactly one configuration warning on
the `console.warn` channel instead of a `RuleFailure`. -/
theorem C3_unknown_rules_lenient (v : FormValidator) (fieldName : String)
    (value : JSVal) (fd : FormData) (rs : List RuleRef)
    (hc : mapGet v.fieldConfigs fieldName = some { rules := RulesField.list rs })
    (h : ∀ r ∈ rs, mapGet v.validationRules r.rname = none) :
    v.validateField fieldName value fd =
      Except.ok ({ isValid := true, errors := [] },
        rs.map (fun r => "Validation rule \"" ++ r.rname ++ "\" not found")) := by
  simp [FormValidator.validateField, hc, runRules_all_unknown v value fd rs h]

theorem C3_unknown_rules_lenient_witness :
    unknownRuleValidator.validateField "g" (JSVal.str "x") emptyFD =
      Except.ok ({ isValid := true, errors := [] },
        ["Validation rule \"doesNotExist\" not found"]) := by
  have h := C3_unknown_rules_lenient unknownRuleValidator "g" (JSVal.str "x") emptyFD
    [RuleRef.str "doesNotExist"] rfl
    (by intro r hr; simp at hr; subst hr; rfl)
  exact h

theorem runRules_clean (v : FormValidator) (value : JSVal) (fd : FormData)
    (rs : List RuleRef)
    (h : ∀ r ∈ rs, ∃ p b, mapGet v.validationRules r.rname = some p ∧
          p value r.rparams fd = Except.ok b) :
    v.runRules value fd rs =
      Except.ok ((rs.filter (ruleFails v value fd)).map v.ruleFailureOf, []) := by
  induction rs with
  | nil => rfl
  | cons r rest ih =>
    obtain ⟨p, b, hp, hb⟩ := h r (List.mem_cons_self r rest)
    have hrest : ∀ x ∈ rest, ∃ p b, mapGet v.validationRules x.rname = some p ∧
        p value x.rparams fd = Except.ok b :=
      fun x hx => h x (List.mem_cons_of_mem r hx)
    have hf : ruleFails v value fd r = !b := by simp [ruleFails, hp, hb]
    cases b with
    | true => simp [FormValidator.runRules, hp, hb, ih hrest, List.filter_cons, hf]
    | false => simp [FormValidator.runRules, hp, hb, ih hrest, List.filter_cons, hf]

/-- C2: for a configured field all of whose referenced rules are registered
with predicates that return a boolean (no throw), `validateField` evaluates
every rule: the returned `errors` list has exactly one entry, in declared
order, per rule whose predicate returned false (no early exit after a
failure), no warning is emitted, and `isValid` holds iff that count is
zero. -/
theorem C2_all_rules_evaluated (v : FormValidator) (fieldName : String)
    (value : JSVal) (fd : FormData) (rs : List RuleRef)
    (hc : mapGet v.fieldConfigs fieldName = some { rules := RulesField.list rs })
    (h : ∀ r ∈ rs, ∃ p b, mapGet v.validationRules r.rname = some p ∧
          p value r.rparams fd = Except.ok b) :
    ∃ res : ValidationResult,
      v.validateField fieldName value fd = Except.ok (res, []) ∧
      res.errors.length = (rs.filter (ruleFails v value fd)).length ∧
      res.errors.map RuleFailure.rule = (rs.filter (ruleFails v value fd)).map RuleRef.rname ∧
      (res.isValid = true ↔ (rs.filter (ruleFails v value fd)).length = 0) := by
  refine ⟨{ isValid := decide (((rs.filter (ruleFails v value fd)).map v.ruleFailureOf).length = 0),
            errors := (rs.filter (ruleFails v value fd)).map v.ruleFailureOf },
          ?_, ?_, ?_, ?_⟩
  · simp [FormValidator.validateField, hc, runRules_clean v value fd rs h]
  · simp
  · simp [List.map_map, FormValidator.ruleFailureOf]
  · simp

theorem C2_all_rules_evaluated_witness :
    ∃ res : ValidationResult,
      twoRuleValidator.validateField "f" (JSVal.str "x") emptyFD = Except.ok (res, []) ∧
      res.errors.length = 1 ∧
      res.errors.map RuleFailure.rule = ["alwaysFail"] := by
  obtain ⟨res, h1, h2, h3, _⟩ := C2_all_rules_evaluated twoRuleValidator "f"
    (JSVal.str "x") emptyFD [RuleRef.str "alwaysFail", RuleRef.str "alwaysPass"] rfl
    (by
      intro r hr
      simp at hr
      rcases hr with rfl | rfl
      · exact ⟨failPred, false, rfl, rfl⟩
      · exact ⟨passPred, true, rfl, rfl⟩)
  exact ⟨res, h1, h2.trans (by rfl), h3.trans (by rfl)⟩

/-- C5: every built-in rule except `required` treats an absent
(null/undefined) or empty-string value as passing, for any params, any
host environment and any form data; `required` itself returns true exactly
when the value is present (neither null nor undefined) and its text form,
after trimming, is non-empty. -/
theorem C5_empty_value_passes (env : JSEnv) (params : Params) (fd : FormData)
    (value : JSVal)
    (he : value = JSVal.null ∨ value = JSVal.undef ∨ value = JSVal.str "") :
    minLengthPred value params fd = Except.ok true ∧
    maxLengthPred value params fd = Except.ok true ∧
    emailPred value params fd = Except.ok true ∧
    phonePred value params fd = Except.ok true ∧
    numberPred value params fd = Except.ok true ∧
    minPred value params fd = Except.ok true ∧
    maxPred value params fd = Except.ok true ∧
    patternPred env value params fd = Except.ok true ∧
    passwordPred value params fd = Except.ok true ∧
    confirmPasswordPred value params fd = Except.ok true ∧
    agePred value params fd = Except.ok true ∧
    datePred env value params fd = Except.ok true ∧
    urlPred env value params fd = Except.ok true ∧
    (∀ (w : JSVal) (q : Params) (g : FormData),
      requiredPred w q g = Except.ok true ↔
        (w ≠ JSVal.null ∧ w ≠ JSVal.undef ∧ jsTrim (toStringJS w) ≠ "")) := by
  have ht : truthy value = false := by rcases he with rfl | rfl | rfl <;> rfl
  refine ⟨?_, ?_, ?_, ?_, ?_, ?_, ?_, ?_, ?_, ?_, ?_, ?_, ?_, ?_⟩
  · simp [minLengthPred, ht]
  · simp [maxLengthPred, ht]
  · simp [emailPred, ht]
  · simp [phonePred, ht]
  · simp [numberPred, ht]
  · simp [minPred, ht]
  · simp [maxPred, ht]
  · simp [patternPred, ht]
  · simp [passwordPred, ht]
  · simp [confirmPasswordPred, ht]
  · simp [agePred, ht]
  · simp [datePred, ht]
  · simp [urlPred, ht]
  · intro w q g
    simp [requiredPred]

theorem C5_empty_value_passes_witness :
    (JSVal.str "" = JSVal.null ∨ JSVal.str "" = JSVal.undef ∨
      JSVal.str "" = JSVal.str "") ∧
    minLengthPred (JSVal.str "") [] emptyFD = Except.ok true ∧
    requiredPred (JSVal.str "a") [] emptyFD = Except.ok true := by
  obtain ⟨h1, _, _, _, _, _, _, _, _, _, _, _, _, hreq⟩ :=
    C5_empty_value_passes env0 [] emptyFD (JSVal.str "") (Or.inr (Or.inr rfl))
  exact ⟨Or.inr (Or.inr rfl), h1, (hreq (JSVal.str "a") [] emptyFD).mpr (by decide)⟩

/-- C9: every JavaScript-falsy value — in particular the number 0 and the
boolean false, not only absent or empty-string values — passes every
built-in rule other than `required`, because each of those rules begins with
the truthiness guard `if (!value) return true`.  In particular `min` with
params containing `value: 5` accepts the numeric value 0, and `number`
accepts the boolean false. -/
theorem C9_falsy_values_pass (env : JSEnv) (params : Params) (fd : FormData)
    (value : JSVal) (h : truthy value = false) :
    minLengthPred value params fd = Except.ok true ∧
    maxLengthPred value params fd = Except.ok true ∧
    emailPred value params fd = Except.ok true ∧
    phonePred value params fd = Except.ok true ∧
    numberPred value params fd = Except.ok true ∧
    minPred value params fd = Except.ok true ∧
    maxPred value params fd = Except.ok true ∧
    patternPred env value params fd = Except.ok true ∧
    passwordPred value params fd = Except.ok true ∧
    confirmPasswordPred value params fd = Except.ok true ∧
    agePred value params fd = Except.ok true ∧
    datePred env value params fd = Except.ok true ∧
    urlPred env value params fd = Except.ok true := by
  refine ⟨?_, ?_, ?_, ?_, ?_, ?_, ?_, ?_, ?_, ?_, ?_, ?_, ?_⟩
  · simp [minLengthPred, h]
  · simp [maxLengthPred, h]
  · simp [emailPred, h]
  · simp [phonePred, h]
  · simp [numberPred, h]
  · simp [minPred, h]
  · simp [maxPred, h]
  · simp [patternPred, h]
  · simp [passwordPred, h]
  · simp [confirmPasswordPred, h]
  · simp [agePred, h]
  · simp [datePred, h]
  · simp [urlPred, h]

theorem C9_falsy_values_pass_witness :
    truthy (JSVal.num 0) = false ∧
    minPred (JSVal.num 0) [("value", JSVal.num 5)] emptyFD = Except.ok true ∧
    truthy (JSVal.bool false) = false ∧
    numberPred (JSVal.bool false) [] emptyFD = Except.ok true := by
  obtain ⟨_, _, _, _, _, hmin, _, _, _, _, _, _, _⟩ :=
    C9_falsy_values_pass env0 [("value", JSVal.num 5)] emptyFD (JSVal.num 0) rfl
  obtain ⟨_, _, _, _, hnum, _, _, _, _, _, _, _, _⟩ :=
    C9_falsy_values_pass env0 [] emptyFD (JSVal.bool false) rfl
  exact ⟨rfl, hmin, rfl, hnum⟩

theorem replaceFuel_absent_pat (pat repl : List Char) :
    ∀ (fuel : Nat) (l : List Char), ¬ (pat <:+: l) → replaceFuel pat repl fuel l = l := by
  intro fuel
  induction fuel with
  | zero => intro l _; rfl
  | succ n ih =>
    intro l hl
    match l with
    | [] => rfl
    | c :: rest =>
      have hcond : ¬ (pat ≠ [] ∧ pat <+: (c :: rest)) := by
        rintro ⟨hne, t, ht⟩
        exact hl ⟨[], t, by simpa using ht⟩
      have hrest : ¬ (pat <:+: rest) := by
        rintro ⟨s, t, hst⟩
        exact hl ⟨c :: s, t, by simp [← hst]⟩
      simp only [replaceFuel, if_neg hcond, ih rest hrest]

/-- C6 counterexample: the claim says the fallback `"Invalid value"` is
used only when the rule is unknown.  But the source computes
`this.errorMessages.get(ruleName) || 'Invalid value'`, so a rule that IS
registered — with the falsy empty string as its template — also yields
`"Invalid value"`, where the claim predicts the rule's own template `""`
(no params, so no substitutions). -/
theorem C6_claim_counterexample :
    mapGet emptyTemplateValidator.errorMessages "r" = some "" ∧
    emptyTemplateValidator.formatErrorMessage "r" [] = "Invalid value" :=
  ⟨rfl, rfl⟩

/-- C6 (amended): `formatErrorMessage` starts from
`errorMessages.get(ruleName) || 'Invalid value'` — the fallback fires when
the rule is unknown or its registered template is the empty string — and
substitutes exactly the params whose value is not null, not undefined and
not the empty string; the substitution is literal replacement of every
occurrence of `\x7bkey\x7d` provided the key contains no regex
metacharacters and the value's text form contains no `$` pattern (the
source splices the raw key into `new RegExp` and passes the value to
`String.replace`): (1) `formatErrorMessage('minLength', \x7blength: 5\x7d)`
yields exactly `"Must be at least 5 characters long"`; (2) placeholders
with no corresponding param key stay literally in the output; (3) a key
whose value is null/undefined/empty-string changes nothing; (4) a safe key
whose placeholder does not occur in the template changes nothing; (5) an
unknown rule, or a registered empty template, yields the fallback. -/
theorem C6_format_error_message_amended :
    (FormValidator.new env0).formatErrorMessage "minLength" [("length", JSVal.num 5)] =
      "Must be at least 5 characters long" ∧
    (FormValidator.new env0).formatErrorMessage "age" [] =
      "Please enter a valid age between \x7bmin\x7d and \x7bmax\x7d" ∧
    (∀ (v : FormValidator) (r k : String) (val : JSVal) (rest : Params),
      (val = JSVal.null ∨ val = JSVal.undef ∨ val = JSVal.str "") →
      v.formatErrorMessage r ((k, val) :: rest) = v.formatErrorMessage r rest) ∧
    (∀ (v : FormValidator) (r k : String) (val : JSVal),
      regexSafeKey k = true →
      dollarFree (toStringJS val) = true →
      ¬ ((("\x7b" ++ k ++ "\x7d" : String)).data <:+: (v.templateFor r).data) →
      v.formatErrorMessage r [(k, val)] = v.templateFor r) ∧
    (∀ (v : FormValidator) (r : String),
      (mapGet v.errorMessages r = none ∨ mapGet v.errorMessages r = some "") →
      v.formatErrorMessage r [] = "Invalid value") := by
  refine ⟨by decide, by decide, ?_, ?_, ?_⟩
  · intro v r k val rest hval
    rcases hval with rfl | rfl | rfl <;> simp [FormValidator.formatErrorMessage]
  · intro v r k val _ _ hni
    by_cases hval : val ≠ JSVal.null ∧ val ≠ JSVal.undef ∧ val ≠ JSVal.str ""
    · simp only [FormValidator.formatErrorMessage, List.foldl_cons, List.foldl_nil,
        if_pos hval, replaceAll]
      rw [replaceFuel_absent_pat _ _ _ _ hni]
    · simp only [FormValidator.formatErrorMessage, List.foldl_cons, List.foldl_nil,
        if_neg hval]
  · intro v r h
    rcases h with h | h <;>
      simp [FormValidator.formatErrorMessage, FormValidator.templateFor, jsOrStr, h]

theorem C6_format_error_message_amended_witness :
    regexSafeKey "k" = true ∧
    (FormValidator.mk [] [] []).formatErrorMessage "missing" [("k", JSVal.num 1)] =
      "Invalid value" ∧
    (FormValidator.mk [] [] []).formatErrorMessage "missing" [("k", JSVal.null)] =
      "Invalid value" ∧
    (FormValidator.mk [] [] []).formatErrorMessage "missing" [] = "Invalid value" := by
  refine ⟨by decide, ?_, ?_, ?_⟩
  · exact C6_format_error_message_amended.2.2.2.1 (FormValidator.mk [] [] []) "missing" "k"
      (JSVal.num 1) (by decide) (by decide) (by decide)
  · exact (C6_format_error_message_amended.2.2.1 (FormValidator.mk [] [] []) "missing" "k"
      JSVal.null [] (Or.inl rfl)).trans (by rfl)
  · exact C6_format_error_message_amended.2.2.2.2 (FormValidator.mk [] [] []) "missing"
      (Or.inl rfl)
